import Mathlib

/-!
Verification of the port-scanner repository (cmd/port-scanner/scan.go).

The Go source is shallowly embedded below.  Pure functions (portsToScan,
isOpen's decision logic, newScanner's validation) become Lean functions;
the goroutine fan-out in scan is modelled as a fold over the probed port
list (every claim about scan here concerns membership and multiplicity,
which are invariant under the completion order of the probes); external
effects (net.ParseIP, net.DialTimeout) are oracles passed as parameters.
Go slices are modelled with their nil-ness made explicit, since the zero
value of a slice field is nil and append always returns a non-nil slice.
-/

namespace PortScanner

/-- Go constant: wellKnownPorts = 1024 (scan.go line 17). -/
def wellKnownPorts : Int := 1024

/-- Go constant: allPorts = 65535 (scan.go line 18). -/
def allPorts : Int := 65535

/-- Go package variable: timeout = 3 * time.Second (scan.go line 21), in seconds. -/
def timeout : Nat := 3

/-- Model of a Go int slice: Go distinguishes the nil slice (the zero value
of a slice-typed field) from a non-nil empty slice, so nil-ness is carried
alongside the elements. -/
structure GoIntSlice where
  isNil : Bool
  elems : List Int

/-- The zero value of a Go slice field: nil, with no elements. -/
def nilSlice : GoIntSlice := { isNil := true, elems := [] }

/-- Go append(s, x) for an int slice: the result always has x at the end and
is never nil, whatever s was. -/
def goAppend (s : GoIntSlice) (x : Int) : GoIntSlice :=
  { isNil := false, elems := s.elems ++ [x] }

/-- The scanner struct (scan.go lines 76-84).  The embedded sync.Mutex only
serialises the appends and carries no observable state, so it is not a field
of the model; openPorts starts as the zero value (nil slice) because
newScanner does not initialise it. -/
structure Scanner where
  host : String
  openPorts : GoIntSlice
  scanAll : Bool

/-- The error produced by newScanner for an invalid host.  The Go code builds
it with xerrors.Errorf so that the message quotes the offending host string;
the model keeps the host itself as the payload. -/
structure InvalidHostError where
  host : String

/-- The message of the invalid-host error: the Go format string is
a quoted host followed by " is an invalid ip address". -/
def InvalidHostError.message (e : InvalidHostError) : String :=
  "\"" ++ e.host ++ "\"" ++ " is an invalid ip address"

/-- newScanner (scan.go lines 86-96).  net.ParseIP is Go standard library,
not repository code, so its success is abstracted as the oracle parseIPOk:
parseIPOk h = true exactly when net.ParseIP(h) is non-nil, i.e. when h is a
syntactically valid IPv4 or IPv6 literal.  On failure no scanner is
returned; on success the scanner has the given host and flag and the zero
value (empty) openPorts. -/
def newScanner (parseIPOk : String → Bool) (host : String) (scanAll : Bool) :
    Except InvalidHostError Scanner :=
  if parseIPOk host then
    Except.ok { host := host, openPorts := nilSlice, scanAll := scanAll }
  else
    Except.error { host := host }

/-- add (scan.go lines 98-104): lock, append the port to openPorts, unlock.
The lock has no observable effect in the sequentialised model. -/
def Scanner.add (s : Scanner) (port : Int) : Scanner :=
  { s with openPorts := goAppend s.openPorts port }

/-- The loop body of portsToScan (scan.go lines 135-138):
for port := 1; port < max; port++ { ports = append(ports, port) }.
The loop is embedded with a structural fuel argument so that it stays
kernel-computable; the guard port < max is kept from the source and the
fuel is chosen large enough never to be the reason the loop stops. -/
def portsLoop (fuel : Nat) (port max : Int) : List Int :=
  match fuel with
  | 0 => []
  | fuel + 1 =>
    if port < max then port :: portsLoop fuel (port + 1) max else []

/-- portsToScan (scan.go lines 129-140): max is wellKnownPorts, replaced by
allPorts when shouldScanAll is set; the ports 1, 2, ... are accumulated
while port < max.  Fuel 65536 exceeds both possible iteration counts. -/
def portsToScan (shouldScanAll : Bool) : List Int :=
  let max := if shouldScanAll then allPorts else wellKnownPorts
  portsLoop 65536 1 max

/-- An error returned by net.DialTimeout; only its existence matters to the
scanner, never its contents. -/
structure DialError where
  msg : String

/-- Observable network effects of one isOpen call: the single dial attempt
(with its network, address and timeout) and the closing of a connection. -/
inductive NetEvent where
  | dialAttempt (network addr : String) (timeoutSecs : Nat)
  | closeConn

/-- Go net.JoinHostPort: brackets the host when it contains a colon
(an IPv6 literal), then joins host and port with a colon. -/
def joinHostPort (host port : String) : String :=
  if host.contains ':' then "[" ++ host ++ "]:" ++ port
  else host ++ ":" ++ port

/-- isOpen (scan.go lines 142-150) together with its event trace.  The
oracle dial models net.DialTimeout: given the network, the joined address
and the timeout it either yields a connection or an error.  On error the
function returns false; on success it closes the connection and returns
true.  strconv.Itoa(port) is the decimal rendering of the port. -/
def isOpenEv (dial : String → String → Nat → Except DialError Unit)
    (host : String) (port : Int) : Bool × List NetEvent :=
  let addr := joinHostPort host (toString port)
  match dial "tcp" addr timeout with
  | Except.error _ => (false, [NetEvent.dialAttempt "tcp" addr timeout])
  | Except.ok _ => (true, [NetEvent.dialAttempt "tcp" addr timeout, NetEvent.closeConn])

/-- isOpen's return value alone. -/
def isOpen (dial : String → String → Nat → Except DialError Unit)
    (host : String) (port : Int) : Bool :=
  (isOpenEv dial host port).fst

/-- Model of a context.Context as far as this program can observe it:
whether it has been cancelled. -/
structure Ctx where
  cancelled : Bool

/-- The probe loop of scan (scan.go lines 110-125): one unit of work per
port in the list, each calling the probe and appending the port on success,
then the barrier.  The concurrent fan-out is linearised into a fold over
the port list; the claims proved below concern only membership and
multiplicity, which do not depend on the completion order. -/
def scanLoop (probe : Int → Bool) : Scanner → List Int → Scanner
  | s, [] => s
  | s, p :: rest => scanLoop probe (if probe p then s.add p else s) rest

/-- scan (scan.go lines 106-127): computes the port list from the scanner's
scanAll flag, probes every port with isOpen on the scanner's host, and
returns the accumulated openPorts after the barrier.  The ctx parameter is
received and never used, exactly as in the source. -/
def Scanner.scan (s : Scanner) (dial : String → String → Nat → Except DialError Unit)
    (ctx : Ctx) : GoIntSlice :=
  (scanLoop (fun p => isOpen dial s.host p) s (portsToScan s.scanAll)).openPorts

/-! ### Helper lemmas about portsToScan -/

/-- With enough fuel, the loop from port up to max produces the mapped range. -/
theorem portsLoop_eq_range (fuel : Nat) :
    ∀ port max : Int, (max - port).toNat ≤ fuel →
      portsLoop fuel port max
        = (List.range (max - port).toNat).map (fun i : Nat => port + (i : Int)) := by
  induction fuel with
  | zero =>
    intro port max h
    have h0 : (max - port).toNat = 0 := Nat.le_zero.mp h
    simp [portsLoop, h0]
  | succ n ih =>
    intro port max h
    by_cases hlt : port < max
    · have hpos : (max - port).toNat = (max - (port + 1)).toNat + 1 := by omega
      have hle : (max - (port + 1)).toNat ≤ n := by omega
      rw [portsLoop, if_pos hlt, ih (port + 1) max hle, hpos,
        List.range_succ_eq_map]
      simp only [List.map_cons, List.map_map, Nat.cast_zero, Int.add_zero]
      refine congrArg₂ List.cons rfl ?_
      refine List.map_congr_left ?_
      intro i _
      simp only [Function.comp_apply]
      push_cast
      ring
    · have h0 : (max - port).toNat = 0 := by omega
      rw [portsLoop, if_neg hlt, h0]
      simp

/-- The number of ports produced for each flag value. -/
def numPorts (b : Bool) : Nat := if b then 65534 else 1023

/-- portsToScan is the mapped range 1, 2, ..., numPorts. -/
theorem portsToScan_eq (b : Bool) :
    portsToScan b = (List.range (numPorts b)).map (fun i : Nat => 1 + (i : Int)) := by
  cases b <;>
    simpa [portsToScan, wellKnownPorts, allPorts, numPorts] using
      portsLoop_eq_range 65536 1 _ (by norm_num)

theorem portsToScan_length (b : Bool) : (portsToScan b).length = numPorts b := by
  simp [portsToScan_eq]

theorem mem_portsToScan (b : Bool) (p : Int) :
    p ∈ portsToScan b ↔ 1 ≤ p ∧ p < 1 + numPorts b := by
  rw [portsToScan_eq]
  simp only [List.mem_map, List.mem_range]
  constructor
  · rintro ⟨i, hi, rfl⟩
    omega
  · intro hp
    refine ⟨(p - 1).toNat, by omega, by omega⟩

theorem portsToScan_nodup (b : Bool) : (portsToScan b).Nodup := by
  rw [portsToScan_eq]
  refine (List.nodup_range (numPorts b)).map ?_
  intro a c hac
  simp only at hac
  omega

theorem portsToScan_sorted (b : Bool) : List.Sorted (· < ·) (portsToScan b) := by
  rw [portsToScan_eq]
  refine List.Pairwise.map _ ?_ (List.pairwise_lt_range (numPorts b))
  intro a c hac
  omega

theorem portsToScan_count_zero (b : Bool) (p : Int)
    (hp : p < 1 ∨ 1 + (numPorts b : Int) ≤ p) : (portsToScan b).count p = 0 := by
  rw [List.count_eq_zero]
  intro hmem
  rw [mem_portsToScan] at hmem
  omega

theorem portsToScan_count_one (b : Bool) (p : Int)
    (hp : 1 ≤ p ∧ p < 1 + numPorts b) : (portsToScan b).count p = 1 :=
  List.count_eq_one_of_mem (portsToScan_nodup b) ((mem_portsToScan b p).mpr hp)

/-! ### Helper lemmas about the scan loop -/

theorem scanLoop_openPorts (probe : Int → Bool) (l : List Int) :
    ∀ s : Scanner, (scanLoop probe s l).openPorts.elems
      = s.openPorts.elems ++ l.filter probe := by
  induction l with
  | nil => intro s; simp [scanLoop]
  | cons p rest ih =>
    intro s
    by_cases hp : probe p <;>
      simp [scanLoop, hp, ih, Scanner.add, goAppend, List.filter_cons]

theorem scanLoop_host (probe : Int → Bool) (l : List Int) :
    ∀ s : Scanner, (scanLoop probe s l).host = s.host := by
  induction l with
  | nil => intro s; rfl
  | cons p rest ih =>
    intro s
    by_cases hp : probe p <;> simp [scanLoop, hp, ih, Scanner.add]

theorem portsToScan_head (b : Bool) : (portsToScan b).head? = some 1 := by
  rw [portsToScan_eq b]
  have h : numPorts b = (numPorts b - 1) + 1 := by cases b <;> simp [numPorts]
  rw [h, List.range_succ_eq_map]
  simp

theorem chain_consecutive_range (n : Nat) :
    List.Chain' (fun a c : Int => c = a + 1)
      ((List.range n).map (fun i : Nat => 1 + (i : Int))) := by
  rw [List.chain'_map]
  cases n with
  | zero => simp
  | succ m =>
    rw [List.chain'_range_succ]
    intro k _
    push_cast
    ring

theorem numPorts_false : numPorts false = 1023 := rfl

theorem numPorts_true : numPorts true = 65534 := rfl

theorem maxOf_false : (if (false : Bool) then allPorts else wellKnownPorts) = 1024 := rfl

theorem maxOf_true : (if (true : Bool) then allPorts else wellKnownPorts) = 65535 := rfl

/-! ### Concrete instances used by witnesses and counterexamples -/

/-- A dial oracle on which every connection attempt fails. -/
def dialRefuseAll : String → String → Nat → Except DialError Unit :=
  fun _ _ _ => Except.error { msg := "connection refused" }

/-- A freshly constructed scanner for the loopback host with the default
flag, exactly as newScanner builds it. -/
def localScanner : Scanner :=
  { host := "127.0.0.1", openPorts := nilSlice, scanAll := false }

/-! ### The claims -/

/-- C1: for a scanner constructed with host h and flag scanAll (so with the
zero-value openPorts), the list returned by scan contains p iff p was
probed (p is in the computed port range) and isOpen on the scanner's host
returned true for p during that scan; no port appears twice in the result;
every probed port lies in the half-open range 1 ≤ p < max with
max = wellKnownPorts = 1024 when scanAll is false and max = allPorts =
65535 when it is true; and every port of that range is probed exactly
once. -/
theorem c1_scan_invariant (dial : String → String → Nat → Except DialError Unit)
    (ctx : Ctx) (s : Scanner) (hinit : s.openPorts = nilSlice) :
    (∀ p : Int, p ∈ (s.scan dial ctx).elems ↔
        p ∈ portsToScan s.scanAll ∧ isOpen dial s.host p = true)
    ∧ (s.scan dial ctx).elems.Nodup
    ∧ (∀ p : Int, p ∈ portsToScan s.scanAll →
        1 ≤ p ∧ p < (if s.scanAll then allPorts else wellKnownPorts))
    ∧ (∀ p : Int, 1 ≤ p → p < (if s.scanAll then allPorts else wellKnownPorts) →
        (portsToScan s.scanAll).count p = 1) := by
  have helems : (s.scan dial ctx).elems
      = (portsToScan s.scanAll).filter (fun p => isOpen dial s.host p) := by
    rw [Scanner.scan, scanLoop_openPorts, hinit]
    rfl
  refine ⟨?_, ?_, ?_, ?_⟩
  · intro p
    rw [helems, List.mem_filter]
  · rw [helems]
    exact (portsToScan_nodup s.scanAll).filter _
  · intro p hp
    rw [mem_portsToScan] at hp
    rcases Bool.eq_false_or_eq_true s.scanAll with hs | hs <;> rw [hs] at hp ⊢
    · rw [numPorts_true] at hp
      rw [maxOf_true]
      omega
    · rw [numPorts_false] at hp
      rw [maxOf_false]
      omega
  · intro p h1 h2
    refine portsToScan_count_one s.scanAll p ?_
    rcases Bool.eq_false_or_eq_true s.scanAll with hs | hs <;> rw [hs] at h2 ⊢
    · rw [maxOf_true] at h2
      rw [numPorts_true]
      omega
    · rw [maxOf_false] at h2
      rw [numPorts_false]
      omega

/-- C1 witness: the invariant instantiated for a fresh loopback scanner, a
dial oracle that refuses every connection, and a live context. -/
theorem c1_scan_invariant_witness :
    (∀ p : Int, p ∈ (localScanner.scan dialRefuseAll { cancelled := false }).elems ↔
        p ∈ portsToScan localScanner.scanAll
          ∧ isOpen dialRefuseAll localScanner.host p = true)
    ∧ (localScanner.scan dialRefuseAll { cancelled := false }).elems.Nodup
    ∧ (∀ p : Int, p ∈ portsToScan localScanner.scanAll →
        1 ≤ p ∧ p < (if localScanner.scanAll then allPorts else wellKnownPorts))
    ∧ (∀ p : Int, 1 ≤ p →
        p < (if localScanner.scanAll then allPorts else wellKnownPorts) →
        (portsToScan localScanner.scanAll).count p = 1) :=
  c1_scan_invariant dialRefuseAll { cancelled := false } localScanner rfl

/-- C2: portsToScan false is exactly the ascending sequence of the integers
1 through 1023 inclusive: it equals the mapped range of length 1023, it is
strictly sorted, its members are exactly the p with 1 ≤ p ≤ 1023, and
neither 0 nor 1024 occurs in it. -/
theorem c2_portsToScan_default :
    portsToScan false = (List.range 1023).map (fun i : Nat => 1 + (i : Int))
    ∧ (portsToScan false).length = 1023
    ∧ (∀ p : Int, p ∈ portsToScan false ↔ 1 ≤ p ∧ p ≤ 1023)
    ∧ List.Sorted (· < ·) (portsToScan false)
    ∧ (portsToScan false).count 0 = 0
    ∧ (portsToScan false).count 1024 = 0 := by
  refine ⟨portsToScan_eq false, portsToScan_length false, ?_,
    portsToScan_sorted false, ?_, ?_⟩
  · intro p
    rw [mem_portsToScan, numPorts_false]
    omega
  · exact portsToScan_count_zero false 0 (by rw [numPorts_false]; omega)
  · exact portsToScan_count_zero false 1024 (by rw [numPorts_false]; omega)

/-- C3: portsToScan true is exactly the ascending sequence of the integers
1 through 65534 inclusive: it equals the mapped range of length 65534, it
is strictly sorted, its members are exactly the p with 1 ≤ p ≤ 65534, and
neither 0 nor 65535 occurs in it. -/
theorem c3_portsToScan_all :
    portsToScan true = (List.range 65534).map (fun i : Nat => 1 + (i : Int))
    ∧ (portsToScan true).length = 65534
    ∧ (∀ p : Int, p ∈ portsToScan true ↔ 1 ≤ p ∧ p ≤ 65534)
    ∧ List.Sorted (· < ·) (portsToScan true)
    ∧ (portsToScan true).count 0 = 0
    ∧ (portsToScan true).count 65535 = 0 := by
  refine ⟨portsToScan_eq true, portsToScan_length true, ?_,
    portsToScan_sorted true, ?_, ?_⟩
  · intro p
    rw [mem_portsToScan, numPorts_true]
    omega
  · exact portsToScan_count_zero true 0 (by rw [numPorts_true]; omega)
  · exact portsToScan_count_zero true 65535 (by rw [numPorts_true]; omega)

/-- C4 counterexample: with scanAll false, portsToScan does not produce
1024 values; the proposition that its length is 1024 is false, the length
being 1023 (the loop runs for 1 ≤ port < 1024). -/
theorem c4_counterexample : ((portsToScan false).length = 1024) = False := by
  rw [portsToScan_length, numPorts_false]
  simp

/-- C4 amended: when scanAll is false, portsToScan produces 1023 values,
the integers 1 through wellKnownPorts - 1 = 1023 inclusive. -/
theorem c4_default_count :
    (portsToScan false).length = 1023
    ∧ (∀ p : Int, p ∈ portsToScan false ↔ 1 ≤ p ∧ p ≤ wellKnownPorts - 1) := by
  refine ⟨(portsToScan_length false).trans numPorts_false, ?_⟩
  intro p
  rw [mem_portsToScan, numPorts_false,
    show wellKnownPorts = (1024 : Int) from rfl]
  omega

/-- C5: newScanner returns a scanner exactly when the host passes the IP
parse (the oracle parseIPOk stands for net.ParseIP succeeding, i.e. the
host being a syntactically valid IPv4 or IPv6 literal); on failure the
error carries the offending host string and no scanner is returned; on
success the scanner has the given host, the given scanAll flag, and an
empty openPorts collection. -/
theorem c5_newScanner_spec (parseIPOk : String → Bool) (h : String) (b : Bool) :
    ((∃ sc, newScanner parseIPOk h b = Except.ok sc) ↔ parseIPOk h = true)
    ∧ (∀ e, newScanner parseIPOk h b = Except.error e → e.host = h)
    ∧ (∀ sc, newScanner parseIPOk h b = Except.ok sc →
        sc.host = h ∧ sc.scanAll = b ∧ sc.openPorts.elems = []) := by
  by_cases hv : parseIPOk h = true
  · refine ⟨by simp [newScanner, hv], ?_, ?_⟩
    · intro e he
      simp [newScanner, hv] at he
    · intro sc hsc
      unfold newScanner at hsc
      rw [if_pos hv] at hsc
      injection hsc with h2
      rw [← h2]
      exact ⟨rfl, rfl, rfl⟩
  · refine ⟨by simp [newScanner, hv], ?_, ?_⟩
    · intro e he
      unfold newScanner at he
      rw [if_neg hv] at he
      injection he with h2
      rw [← h2]
    · intro sc hsc
      simp [newScanner, hv] at hsc

/-- C6: isOpen performs exactly one dial, on the tcp network, at the joined
host:port address, with the fixed timeout of 3 seconds; it returns true
exactly when the dial yields a connection, in which case the connection is
closed immediately; any dial error, whatever its contents, makes it return
false, so no error distinction reaches the caller. -/
theorem c6_isOpen_spec (dial : String → String → Nat → Except DialError Unit)
    (host : String) (port : Int) :
    (isOpen dial host port = true
      ↔ ∃ u, dial "tcp" (joinHostPort host (toString port)) timeout = Except.ok u)
    ∧ ((isOpenEv dial host port).snd
      = NetEvent.dialAttempt "tcp" (joinHostPort host (toString port)) timeout
          :: (if isOpen dial host port then [NetEvent.closeConn] else []))
    ∧ timeout = 3
    ∧ (∀ e, dial "tcp" (joinHostPort host (toString port)) timeout = Except.error e →
        isOpen dial host port = false) := by
  cases hd : dial "tcp" (joinHostPort host (toString port)) timeout with
  | error e =>
    refine ⟨?_, ?_, rfl, ?_⟩ <;> simp [isOpen, isOpenEv, hd]
  | ok u =>
    refine ⟨?_, ?_, rfl, ?_⟩ <;> simp [isOpen, isOpenEv, hd]

/-- C7: the context passed to scan has no effect whatsoever on its result:
for the same scanner and dial oracle, scan returns the same collection for
any two contexts, in particular for a cancelled and a live one, because the
context parameter is received and never consulted. -/
theorem c7_ctx_has_no_effect (dial : String → String → Nat → Except DialError Unit)
    (s : Scanner) (ctx1 ctx2 : Ctx) :
    s.scan dial ctx1 = s.scan dial ctx2 := rfl

/-- C8 counterexample: with an empty port range and a freshly constructed
scanner, the probe loop returns the scanner's untouched zero-value
openPorts, which is the nil slice, not a non-nil one. -/
theorem c8_counterexample :
    (scanLoop (fun _ => false) localScanner []).openPorts = nilSlice := rfl

/-- C8 amended: when the port range is empty the probe loop launches no
probe and immediately returns the scanner's initial result collection,
which is empty; being Go's zero-value slice, never appended to, it is the
nil slice rather than a non-nil empty one. -/
theorem c8_empty_range (probe : Int → Bool) (s : Scanner)
    (hinit : s.openPorts = nilSlice) :
    (scanLoop probe s []).openPorts.elems = []
    ∧ (scanLoop probe s []).openPorts.isNil = true := by
  simp [scanLoop, hinit, nilSlice]

/-- C8 witness: the amended statement at a concrete scanner and probe. -/
theorem c8_empty_range_witness :
    (scanLoop (fun _ => true)
      { host := "::1", openPorts := nilSlice, scanAll := true } []).openPorts.elems = []
    ∧ (scanLoop (fun _ => true)
      { host := "::1", openPorts := nilSlice, scanAll := true } []).openPorts.isNil = true :=
  c8_empty_range (fun _ => true) { host := "::1", openPorts := nilSlice, scanAll := true } rfl

/-- C9: the default port list is an initial segment of the full one (the
first 1023 elements of portsToScan true are the whole of portsToScan
false), both lists start at 1 and step by exactly one between consecutive
elements, and for either flag the list is strictly sorted and free of
duplicates. -/
theorem c9_portsToScan_coherent :
    (portsToScan true).take 1023 = portsToScan false
    ∧ (∀ b : Bool, (portsToScan b).head? = some 1)
    ∧ (∀ b : Bool, List.Chain' (fun a c : Int => c = a + 1) (portsToScan b))
    ∧ (∀ b : Bool, List.Sorted (· < ·) (portsToScan b))
    ∧ (∀ b : Bool, (portsToScan b).Nodup) := by
  refine ⟨?_, portsToScan_head, ?_, portsToScan_sorted, portsToScan_nodup⟩
  · rw [portsToScan_eq true, portsToScan_eq false, numPorts_true, numPorts_false,
      ← List.map_take, List.take_range]
    norm_num
  · intro b
    rw [portsToScan_eq b]
    exact chain_consecutive_range (numPorts b)

/-- C10: add appends exactly the single element p at the end of openPorts,
preserving the previously stored elements and their order, and leaves the
scanner's host and scanAll fields unchanged; it does so for every p, with
no range or duplicate check. -/
theorem c10_add_frame (s : Scanner) (p : Int) :
    (s.add p).openPorts.elems = s.openPorts.elems ++ [p]
    ∧ (s.add p).openPorts.elems.length = s.openPorts.elems.length + 1
    ∧ (s.add p).host = s.host
    ∧ (s.add p).scanAll = s.scanAll := by
  refine ⟨rfl, ?_, rfl, rfl⟩
  simp [Scanner.add, goAppend]

end PortScanner
